import Mathlib

/-!
Verification development for the vscode-sourcemaps-navigator extension.

The TypeScript sources (`sourceMapItem.ts`, `sourceMapStore.ts`, the extension
entry point and `promisedFs.ts`) are shallowly embedded below.  Strings are
Lean `String`s; all string manipulation is implemented structurally over
`List Char` so that every definition evaluates by `decide`/`rfl`.  The Node.js
posix `path` primitives (`resolve`, `dirname`, `relative`) that the code calls
are embedded from their documented semantics (Node runs with posix paths in
this deployment); `process.cwd()` is threaded as an explicit `cwd` argument.
External collaborators (the vscode text-document/watcher API, the `source-map`
decoder, the file system and JSON parsing) are modelled at their interface
boundary: documents are their line lists, decoders and I/O are oracle
functions, watchers are ledger entries with fresh identifiers.
-/

set_option autoImplicit false

/-- Whitespace characters removed by JavaScript `String.prototype.trim` that
can occur in source text here (ASCII whitespace). -/
def isJsWhitespace (c : Char) : Bool :=
  c == ' ' || c == '\t' || c == '\n' || c == '\r' || c == '\x0b' || c == '\x0c'

/-- Model of JavaScript `String.prototype.trim`. -/
def jsTrim (s : String) : String :=
  ⟨((s.data.dropWhile isJsWhitespace).reverse.dropWhile isJsWhitespace).reverse⟩

/-- Drops `p` from the front of `s`; `none` when `p` is not a prefix. -/
def dropPrefixChars : List Char → List Char → Option (List Char)
  | rest, [] => some rest
  | [], _ :: _ => none
  | c :: cs, d :: ds => if c = d then dropPrefixChars cs ds else none

/-- String form of `dropPrefixChars`. -/
def stripPrefixString (s p : String) : Option String :=
  (dropPrefixChars s.data p.data).map (fun cs => ⟨cs⟩)

/-- Splits a character list at every occurrence of `sep` (keeping empty
segments), as JavaScript `String.prototype.split` with a one-character
separator does. -/
def splitChars (sep : Char) (l : List Char) : List (List Char) :=
  l.foldr
    (fun c acc =>
      match acc with
      | [] => if c = sep then [[], []] else [[c]]
      | h :: t => if c = sep then [] :: h :: t else (c :: h) :: t)
    [[]]

/-- Joins segments with `sep` between them. -/
def joinChars (sep : Char) (segs : List (List Char)) : List Char :=
  match segs with
  | [] => []
  | h :: t => h ++ t.foldr (fun seg acc => sep :: seg ++ acc) []

/-- One step of Node's `normalizeString`: process one path segment against the
stack of kept segments.  `allowAboveRoot` is true when normalizing a relative
path (leading `..` segments are kept instead of dropped). -/
def normStep (allowAboveRoot : Bool) (stack : List (List Char)) (seg : List Char) :
    List (List Char) :=
  if seg = [] ∨ seg = ['.'] then stack
  else if seg = ['.', '.'] then
    match stack.getLast? with
    | some last =>
      if last = ['.', '.'] then (if allowAboveRoot then stack ++ [seg] else stack)
      else stack.dropLast
    | none => if allowAboveRoot then [seg] else []
  else stack ++ [seg]

/-- Node's `normalizeString` on a pre-split segment list. -/
def normalizeSegments (allowAboveRoot : Bool) (segs : List (List Char)) :
    List (List Char) :=
  segs.foldl (normStep allowAboveRoot) []

/-- The right-to-left join loop of Node's posix `path.resolve`: arguments are
visited from the last one backwards (here the input list is already reversed),
empty arguments are skipped, and joining stops at the first absolute path. -/
def resolveJoin : List Char → List String → List Char × Bool
  | acc, [] => (acc, false)
  | acc, p :: rest =>
    match p.data with
    | [] => resolveJoin acc rest
    | c :: cs =>
      let acc2 := (c :: cs) ++ '/' :: acc
      if c = '/' then (acc2, true) else resolveJoin acc2 rest

/-- Node's posix `path.resolve(...args)` with `process.cwd()` passed
explicitly as `cwd` (it is consulted only when no argument is absolute). -/
def pathResolve (cwd : String) (args : List String) : String :=
  let (joined, isAbs) := resolveJoin [] args.reverse
  let (joined, isAbs) :=
    if isAbs then (joined, true)
    else
      match cwd.data with
      | [] => (joined, false)
      | c :: cs => ((c :: cs) ++ '/' :: joined, c = '/')
  let norm := joinChars '/' (normalizeSegments (!isAbs) (splitChars '/' joined))
  if isAbs then ⟨'/' :: norm⟩
  else if norm.isEmpty then "." else ⟨norm⟩

/-- The scanning loop of Node's posix `path.dirname`: walking indices from the
end of the string down to index 1, returns the index of the separator that
ends the parent directory (skipping trailing separators), or `none`. -/
def dirnameScan (chars : List Char) : Nat → Bool → Option Nat
  | 0, _ => none
  | i + 1, matchedSlash =>
    if chars.getD (i + 1) ' ' = '/' then
      if matchedSlash then dirnameScan chars i matchedSlash else some (i + 1)
    else dirnameScan chars i false

/-- Node's posix `path.dirname`. -/
def posixDirname (p : String) : String :=
  match p.data with
  | [] => "."
  | c :: cs =>
    let hasRoot := c = '/'
    match dirnameScan (c :: cs) ((c :: cs).length - 1) true with
    | none => if hasRoot then "/" else "."
    | some e => if hasRoot ∧ e = 1 then "//" else ⟨(c :: cs).take e⟩

/-- The non-empty segments of a resolved absolute path. -/
def absSegments (cwd p : String) : List (List Char) :=
  (splitChars '/' (pathResolve cwd [p]).data).filter (fun seg => ¬ seg = [])

/-- Length of the common prefix of two segment lists. -/
def commonSegments : List (List Char) → List (List Char) → Nat
  | [], _ => 0
  | _ :: _, [] => 0
  | a :: as, b :: bs => if a = b then commonSegments as bs + 1 else 0

/-- Node's posix `path.relative(from, to)`, modelled segment-wise: both ends
are resolved, the common prefix is dropped, and each remaining `from` segment
contributes one `..`. -/
def pathRelative (cwd fromPath toPath : String) : String :=
  if fromPath = toPath then ""
  else
    let f := absSegments cwd fromPath
    let t := absSegments cwd toPath
    if f = t then ""
    else
      let n := commonSegments f t
      let segs := (List.replicate (f.length - n) ['.', '.']) ++ t.drop n
      ⟨joinChars '/' segs⟩

/-- Model of `Url.parse(url).protocol === 'data:'` from `sourceMapStore.ts`. -/
def isDataUri (url : String) : Bool :=
  (dropPrefixChars url.data ("data:").data).isSome

/-- Model of `sourceMapUrl.replace(/\r?\n/g, '')` from
`SourceMapItem.fromDataUrl`. -/
def removeLineBreaks : List Char → List Char
  | [] => []
  | '\r' :: '\n' :: rest => removeLineBreaks rest
  | '\n' :: rest => removeLineBreaks rest
  | c :: rest => c :: removeLineBreaks rest

/-- The raw JSON source-map payload (the `RawSourceMap` interface of the
`source-map` library, as consumed by `sourceMapItem.ts`).  Fields that the
JSON may omit or set to `null` are `Option`s. -/
structure RawSourceMap where
  version : Nat
  sources : List String
  names : List String
  sourceRoot : Option String
  sourcesContent : Option (List (Option String))
  mappings : String
  file : Option String
deriving DecidableEq, Repr

/-- Model of the JavaScript truthiness coercion `x || ""` applied to an
optional string field (`null`/`undefined` and `""` both yield `""`). -/
def jsOrEmpty : Option String → String
  | some s => s
  | none => ""

/-- `SourceMapItem` from `sourceMapItem.ts`: the raw payload, the map file's
own path, and the two path sets resolved by the constructor.  The
`SourceMapConsumer` handle is the external decoder; queries against it are
modelled as oracle functions passed to the position-translation methods. -/
structure SourceMapItem where
  rawSourceMap : RawSourceMap
  sourceMapFile : String
  sourceFiles : List String
  generatedFile : String
deriving DecidableEq, Repr

/-- The `SourceMapItem` constructor.  `sourceFiles` applies
`path.resolve(path.dirname(sourceMapFile), rawSourceMap.sourceRoot || "", source)`
to every declared source; `generatedFile` is
`rawSourceMap.file ? path.resolve(path.dirname(sourceMapFile), rawSourceMap.file) : sourceMapFile`
(a JavaScript truthiness test, so an empty `file` field behaves like an
absent one).  Both are computed here once; the structure is immutable. -/
def SourceMapItem.construct (cwd : String) (rawSourceMap : RawSourceMap)
    (sourceMapFile : String) : SourceMapItem :=
  { rawSourceMap, sourceMapFile
  , sourceFiles := rawSourceMap.sources.map
      (fun source =>
        pathResolve cwd [posixDirname sourceMapFile, jsOrEmpty rawSourceMap.sourceRoot, source])
  , generatedFile :=
      match rawSourceMap.file with
      | some f => if f = "" then sourceMapFile else pathResolve cwd [posixDirname sourceMapFile, f]
      | none => sourceMapFile }

/-- A query to the external `source-map` decoder (the argument shape of
`SourceMapConsumer.originalPositionFor` / `generatedPositionFor`): 1-based
line, 0-based column, and for the generated direction a source path. -/
structure SmQuery where
  source : Option String
  line : Int
  column : Int
deriving DecidableEq, Repr

/-- A decoder answer: any of the fields may be `null` when the position falls
outside the mapped region. -/
structure SmPosition where
  source : Option String
  line : Option Int
  column : Option Int
  name : Option String
deriving DecidableEq, Repr

deriving instance DecidableEq for Except

/-- A decoder oracle: the externally-owned `SourceMapConsumer` query function;
an `error` result models the library throwing on an unresolvable query. -/
def SmDecoder : Type := SmQuery → Except String SmPosition

/-- Modelled from the spec: `filePosition.ts` is not among the provided
sources.  §3: a `FilePosition` carries an absolute `file` path, 0-based
`line` and `column`, and optional embedded `contents`. -/
structure FilePosition where
  file : String
  line : Nat
  column : Nat
  contents : Option String
deriving DecidableEq, Repr

/-- Modelled from the spec: `filePosition.ts` is not among the provided
sources.  §4.1/§4.2: the decoder query uses 1-based lines and 0-based
columns, so the editor-side 0-based line is shifted by +1. -/
def FilePosition.toSmQuery (p : FilePosition) : SmQuery :=
  { source := none, line := (p.line : Int) + 1, column := (p.column : Int) }

/-- Modelled from the spec: `filePosition.ts` is not among the provided
sources.  §4.1: builds a `FilePosition` from a decoder answer, shifting the
1-based decoder line back to 0-based; a `null` source falls back to the
empty path and `null` coordinates to 0 (the callers below always override
`source` before calling, so only the shift is observable). -/
def FilePosition.fromSmPosition (decoded : SmPosition) : FilePosition :=
  { file := (decoded.source).getD ("")
  , line := (match decoded.line with | some l => (l - 1).toNat | none => 0)
  , column := (match decoded.column with | some c => c.toNat | none => 0)
  , contents := none }

/-- Error message of `SourceMapItem.originalPositionFor`. -/
def originalPositionErrorMessage : String :=
  "Failed to get original position for generated file"

/-- Error message of `SourceMapItem.generatedPositionFor`. -/
def generatedPositionErrorMessage : String :=
  "Failed to get generated position for original file"

/-- `SourceMapItem.originalPositionFor`: queries the decoder with the
generated-side coordinate, resolves the answered source against the map
file's directory (`path.resolve(path.dirname(this.sourceMapFile), smPosition.source)` —
a `null` source makes `path.resolve` throw, caught by the method's
`try`/`catch`), and attaches `rawSourceMap.sourcesContent[sources.indexOf(smPosition.source)]`
as `contents` when that element is truthy (present, non-`null` and
non-empty; `indexOf` misses give index `-1`, whose lookup is `undefined`). -/
def SourceMapItem.originalPositionFor (item : SourceMapItem) (decoder : SmDecoder)
    (cwd : String) (position : FilePosition) : Except String FilePosition :=
  match decoder position.toSmQuery with
  | .error _ => .error originalPositionErrorMessage
  | .ok smPosition =>
    match smPosition.source with
    | none => .error originalPositionErrorMessage
    | some decodedSource =>
      let source := pathResolve cwd [posixDirname item.sourceMapFile, decodedSource]
      let result := FilePosition.fromSmPosition { smPosition with source := some source }
      match item.rawSourceMap.sourcesContent with
      | none => .ok result
      | some sourcesContent =>
        match item.rawSourceMap.sources.findIdx? (fun s => s = decodedSource) with
        | none => .ok result
        | some mapSourceIndex =>
          match sourcesContent.get? mapSourceIndex with
          | some (some c) => if c = "" then .ok result else .ok { result with contents := some c }
          | _ => .ok result

/-- `SourceMapItem.generatedPositionFor`: computes the queried source as the
input file's path relative to the resolved source root, queries the decoder,
and rewrites the answer's file to `generatedFile`. -/
def SourceMapItem.generatedPositionFor (item : SourceMapItem) (decoder : SmDecoder)
    (cwd : String) (position : FilePosition) : Except String FilePosition :=
  let absSourceRoot :=
    pathResolve cwd [posixDirname item.sourceMapFile, jsOrEmpty item.rawSourceMap.sourceRoot]
  let source := pathRelative cwd absSourceRoot position.file
  match decoder { position.toSmQuery with source := some source } with
  | .error _ => .error generatedPositionErrorMessage
  | .ok smPosition =>
    .ok (FilePosition.fromSmPosition { smPosition with source := some item.generatedFile })

/-- `SourceMapItem.isCurrentDocumentGenerated`: string equality of the active
document's file name with the resolved generated-file path. -/
def SourceMapItem.isCurrentDocumentGenerated (item : SourceMapItem)
    (activeFileName : String) : Bool :=
  item.generatedFile == activeFileName

/-- The translation step of `navigate` in the extension entry point: the
mapping direction is chosen by `isCurrentDocumentGenerated`. -/
def navigateTranslation (decoderO decoderG : SmDecoder) (cwd : String)
    (sm : SourceMapItem) (activeFileName : String) (activePosition : FilePosition) :
    Except String FilePosition :=
  if sm.isCurrentDocumentGenerated activeFileName then
    sm.originalPositionFor decoderO cwd activePosition
  else
    sm.generatedPositionFor decoderG cwd activePosition

/-- A vscode `TextDocument` at the interface boundary: its file name and its
list of lines (`lineCount` is the list length; `getText` over a line range
yields those lines joined by the end-of-line sequence, whose `split('\n')`
recovers them — `jsTrim` in the matcher also swallows a stray `'\r'`). -/
structure TextDocument where
  fileName : String
  lines : List String
deriving DecidableEq, Repr

/-- vscode `TextDocument.lineCount`. -/
def TextDocument.lineCount (d : TextDocument) : Nat := d.lines.length

/-- Failure cases of `SourceMapFetcher.fetch`.  `illegalRange` models the
vscode `Position` constructor rejecting the negative start line
`document.lineCount - 10` that the code produces for documents of fewer than
10 lines; `noUrl` is the method's own "Can't fetch url from current document"
error, which carries the document's file name. -/
inductive FetchError where
  | illegalRange
  | noUrl (fileName : String)
deriving DecidableEq, Repr

/-- The `SourceMapFetchResult` interface of `sourceMapStore.ts`. -/
structure SourceMapFetchResult where
  mapUrl : String
  fileUrl : String
deriving DecidableEq, Repr

/-- `SourceMapFetcher.tryExtractUrl`: matches the trimmed line against
`^//[#@] ?sourceMappingURL=(.+)$` and returns the trimmed capture, or `""`
on no match.  The four prefixes enumerate the required `#`/`@` marker with
and without the optional single space; the capture must be non-empty. -/
def SourceMapFetcher.tryExtractUrl (line : String) : String :=
  let t := jsTrim line
  let matched :=
    (stripPrefixString t ("//# sourceMappingURL=")).orElse
      (fun _ => (stripPrefixString t ("//#sourceMappingURL=")).orElse
        (fun _ => (stripPrefixString t ("//@ sourceMappingURL=")).orElse
          (fun _ => stripPrefixString t ("//@sourceMappingURL="))))
  match matched with
  | some rest => if rest.data = [] then "" else jsTrim rest
  | none => ""

/-- The `fetchedMapUrl` computation of `SourceMapFetcher.fetch`: the text of
the last ten document lines, split back into lines and reduced from the right
by `result || this.tryExtractUrl(line)` starting from `""`. -/
def SourceMapFetcher.fetchedMapUrl (document : TextDocument) : String :=
  ((document.lines.drop (document.lines.length - 10)).reverse).foldl
    (fun result line =>
      if result = "" then SourceMapFetcher.tryExtractUrl line else result)
    ""

/-- `SourceMapFetcher.fetch`: builds the
`Range(document.lineCount - 10, 0, document.lineCount + 1, 0)` window (whose
construction fails for documents of fewer than 10 lines, because vscode
positions reject negative lines; the oversized end position is clamped by
`getText`), extracts the last matching directive value, and resolves it
against the document's directory unless it is a data URI. -/
def SourceMapFetcher.fetch (cwd : String) (document : TextDocument) :
    Except FetchError SourceMapFetchResult :=
  if document.lineCount < 10 then .error .illegalRange
  else
    let fetchedMapUrl := SourceMapFetcher.fetchedMapUrl document
    if fetchedMapUrl = "" then .error (.noUrl document.fileName)
    else
      let fileUrl := document.fileName
      let mapUrl :=
        if isDataUri fetchedMapUrl then fetchedMapUrl
        else pathResolve cwd [posixDirname fileUrl, fetchedMapUrl]
      .ok { mapUrl, fileUrl }

/-- The ambient Node/vscode environment: the working directory and the
external effectful capabilities used by the map-construction pipeline
(`fs.readFile` via `promisedFs.ts`, `JSON.parse` combined with
`new SourceMapConsumer` validation, and base64 decoding of data URIs). -/
structure Env where
  cwd : String
  readFile : String → Except String String
  parseJsonMap : String → Except String RawSourceMap
  base64DecodeUtf8 : String → Except String String

/-- `SourceMapItem.fromString`: parse the JSON payload and construct. -/
def SourceMapItem.fromString (env : Env) (data mapFile : String) :
    Except String SourceMapItem :=
  match env.parseJsonMap data with
  | .ok rawSourceMap => .ok (SourceMapItem.construct env.cwd rawSourceMap mapFile)
  | .error _ => .error ("Failed to create source map object from supplied JSON")

/-- `SourceMapItem.fromFile`: read the map file and parse it; any failure
reduces to the file-read error message. -/
def SourceMapItem.fromFile (env : Env) (sourceMapFile : String) :
    Except String SourceMapItem :=
  match env.readFile sourceMapFile with
  | .ok fileContents =>
    match SourceMapItem.fromString env fileContents sourceMapFile with
    | .ok sm => .ok sm
    | .error _ => .error ("Can\x27t read source map from map file")
  | .error _ => .error ("Can\x27t read source map from map file")

/-- `SourceMapItem.fromDataUrl`: strip line breaks, take the payload after the
first comma (a missing payload makes the buffer construction throw), decode
base64, and parse; any failure reduces to the data-URI error message. -/
def SourceMapItem.fromDataUrl (env : Env) (sourceMapUrl sourceMapFile : String) :
    Except String SourceMapItem :=
  let cleaned := removeLineBreaks sourceMapUrl.data
  match (splitChars ',' cleaned).get? 1 with
  | none => .error ("Can\x27t read source map from data URI")
  | some dataChars =>
    match env.base64DecodeUtf8 ⟨dataChars⟩ with
    | .error _ => .error ("Can\x27t read source map from data URI")
    | .ok decoded =>
      match SourceMapItem.fromString env decoded sourceMapFile with
      | .ok sm => .ok sm
      | .error _ => .error ("Can\x27t read source map from data URI")

/-- A `vscode.FileSystemWatcher` at the interface boundary: the store creates
one per cached generated file (`createFileSystemWatcher(item.generatedFile, true)`),
identified here by a fresh number so that disposal can be tracked. -/
structure FileSystemWatcher where
  id : Nat
  pattern : String
  ignoreCreateEvents : Bool
deriving DecidableEq, Repr

/-- JavaScript string-keyed objects are embedded as duplicate-free
association lists; `lookupKey` is property access. -/
def lookupKey {α : Type} : List (String × α) → String → Option α
  | [], _ => none
  | p :: rest, k => if p.1 = k then some p.2 else lookupKey rest k

/-- Property assignment `obj[k] = v`: overwrite in place or append. -/
def setKey {α : Type} : List (String × α) → String → α → List (String × α)
  | [], k, v => [(k, v)]
  | p :: rest, k, v => if p.1 = k then (k, v) :: rest else p :: setKey rest k v

/-- Property deletion `delete obj[k]`. -/
def deleteKey {α : Type} : List (String × α) → String → List (String × α)
  | [], _ => []
  | p :: rest, k => if p.1 = k then deleteKey rest k else p :: deleteKey rest k

/-- The mutable state of `SourceMapStore`: the three string-keyed tables,
plus the watcher-id counter and the ledger of disposed watcher ids (the
observable effect of `FileSystemWatcher.dispose()`). -/
structure StoreState where
  cache : List (String × SourceMapItem)
  reverseLookupTable : List (String × String)
  watchers : List (String × FileSystemWatcher)
  nextWatcherId : Nat
  disposedIds : List Nat
deriving DecidableEq, Repr

/-- The freshly constructed store. -/
def initialStore : StoreState :=
  { cache := [], reverseLookupTable := [], watchers := [], nextWatcherId := 0
  , disposedIds := [] }

/-- `SourceMapStore.addItem`: cache the item under its generated file, create
and register a watcher under the same key (an existing watcher at that key is
overwritten without being disposed), and point every source file's
reverse-lookup entry at the generated file. -/
def SourceMapStore.addItem (s : StoreState) (item : SourceMapItem) : StoreState :=
  { cache := setKey s.cache item.generatedFile item
  , watchers := setKey s.watchers item.generatedFile
      { id := s.nextWatcherId, pattern := item.generatedFile, ignoreCreateEvents := true }
  , reverseLookupTable :=
      item.sourceFiles.foldl (fun t sourceFile => setKey t sourceFile item.generatedFile)
        s.reverseLookupTable
  , nextWatcherId := s.nextWatcherId + 1
  , disposedIds := s.disposedIds }

/-- `SourceMapStore.removeItem`: dispose and drop the watcher if present;
if the key is cached, drop the cached item's source files from the reverse
table and the cache entry itself. -/
def SourceMapStore.removeItem (s : StoreState) (generatedPath : String) : StoreState :=
  let s1 :=
    match lookupKey s.watchers generatedPath with
    | some w =>
      { s with disposedIds := s.disposedIds ++ [w.id]
             , watchers := deleteKey s.watchers generatedPath }
    | none => s
  match lookupKey s1.cache generatedPath with
  | some item =>
    { s1 with
        reverseLookupTable :=
          (item.sourceFiles.foldl (fun t sourceFile => deleteKey t sourceFile)
            s1.reverseLookupTable)
      , cache := deleteKey s1.cache generatedPath }
  | none => s1

/-- `SourceMapStore.reverseLookup`: follow a truthy reverse-table entry into
the cache (an empty-string table value is falsy and is not followed; a
dangling entry yields `undefined`, here `none`). -/
def SourceMapStore.reverseLookup (s : StoreState) (sourceFileName : String) :
    Option SourceMapItem :=
  match lookupKey s.reverseLookupTable sourceFileName with
  | some g => if g = "" then none else lookupKey s.cache g
  | none => none

/-- The cache-probe step of `SourceMapStore.getForCurrentDocument`:
`this.cache[currentDocument.fileName] || this.reverseLookup(currentDocument.fileName)`;
`none` is the miss (re-fetch) path. -/
def SourceMapStore.lookupFor (s : StoreState) (fileName : String) :
    Option SourceMapItem :=
  match lookupKey s.cache fileName with
  | some item => some item
  | none => SourceMapStore.reverseLookup s fileName

/-- `SourceMapStore.dispose`: remove every cached entry (`Object.keys` is
snapshotted before the iteration). -/
def SourceMapStore.dispose (s : StoreState) : StoreState :=
  (s.cache.map Prod.fst).foldl SourceMapStore.removeItem s

/-- Error message of `SourceMapStore.fetch`, wrapping every fetch-stage
failure. -/
def storeFetchErrorMessage : String :=
  "Can\x27t retrieve source maps for current document"

/-- `SourceMapStore.fetch`: locate the directive, then construct the item
from the data URI or the map file; every failure is rethrown as the single
store-level fetch error. -/
def SourceMapStore.fetch (env : Env) (document : TextDocument) :
    Except String SourceMapItem :=
  match SourceMapFetcher.fetch env.cwd document with
  | .error _ => .error storeFetchErrorMessage
  | .ok r =>
    match
      (if isDataUri r.mapUrl then SourceMapItem.fromDataUrl env r.mapUrl r.fileUrl
       else SourceMapItem.fromFile env r.mapUrl) with
    | .error _ => .error storeFetchErrorMessage
    | .ok item => .ok item

/-- `SourceMapStore.getForCurrentDocument` as a state transformer: probe the
cache and the reverse index; on a miss, fetch, register the new item and
return it.  The returned state is the store after the call (unchanged on a
hit and on a failed fetch, which throws before any mutation). -/
def SourceMapStore.getForCurrentDocument (env : Env) (s : StoreState)
    (document : TextDocument) : Except String SourceMapItem × StoreState :=
  match SourceMapStore.lookupFor s document.fileName with
  | some result => (.ok result, s)
  | none =>
    match SourceMapStore.fetch env document with
    | .error e => (.error e, s)
    | .ok item => (.ok item, SourceMapStore.addItem s item)

/-- A store mutation, for reachability statements: the two operations that
touch the cache/reverse/watcher triple. -/
inductive StoreOp where
  | add (item : SourceMapItem)
  | remove (generatedPath : String)
deriving DecidableEq, Repr

/-- Apply one operation. -/
def applyStoreOp (s : StoreState) : StoreOp → StoreState
  | .add item => SourceMapStore.addItem s item
  | .remove generatedPath => SourceMapStore.removeItem s generatedPath

/-- Run a sequence of operations from a starting state. -/
def runStoreOps (s : StoreState) (ops : List StoreOp) : StoreState :=
  ops.foldl applyStoreOp s

/-- The items added by a sequence of operations. -/
def addedItems : List StoreOp → List SourceMapItem
  | [] => []
  | .add item :: rest => item :: addedItems rest
  | .remove _ :: rest => addedItems rest

/-- Claim-side characterization: the value of the last (closest-to-end) line
whose directive extraction is non-empty, i.e. the last matching
`sourceMappingURL` line of the given window. -/
def lastDirectiveValue : List String → Option String
  | [] => none
  | l :: rest =>
    match lastDirectiveValue rest with
    | some v => some v
    | none =>
      if SourceMapFetcher.tryExtractUrl l = "" then none
      else some (SourceMapFetcher.tryExtractUrl l)

/-- Claim-side characterization of the `contents` attachment rule of
`originalPositionFor`: the embedded text carried by `sourcesContent` at the
index of the decoder-returned source in the map's `sources` list, when that
entry is present and non-empty. -/
def embeddedContent (raw : RawSourceMap) (decodedSource : String) : Option String :=
  match raw.sourcesContent with
  | none => none
  | some sourcesContent =>
    match raw.sources.findIdx? (fun s => s = decodedSource) with
    | none => none
    | some i =>
      match sourcesContent.get? i with
      | some (some c) => if c = "" then none else some c
      | _ => none

/-- Duplicate-free keys, the representation invariant of embedded
JavaScript objects. -/
@[reducible]
def NodupKeys {α : Type} (m : List (String × α)) : Prop :=
  (m.map Prod.fst).Nodup

/-- The store invariant carried through reachability proofs: every cache
entry has a watcher under the same key, is keyed by its own generated file,
has all its source files pointing back to it in the reverse table, and
distinct cached items have disjoint source files. -/
def StoreInv (s : StoreState) : Prop :=
  (∀ p ∈ s.cache, (lookupKey s.watchers p.1).isSome = true) ∧
  (∀ p ∈ s.cache, p.2.generatedFile = p.1) ∧
  (∀ p ∈ s.cache, ∀ src ∈ p.2.sourceFiles,
    lookupKey s.reverseLookupTable src = some p.1) ∧
  (∀ p ∈ s.cache, ∀ q ∈ s.cache, p.1 ≠ q.1 → ∀ x ∈ p.2.sourceFiles, x ∉ q.2.sourceFiles)

/-- Pairwise source-disjointness of items with distinct generated files: no
source file is claimed by two different generated files. -/
@[reducible]
def ItemsOk (items : List SourceMapItem) : Prop :=
  ∀ i ∈ items, ∀ j ∈ items, i.generatedFile ≠ j.generatedFile →
    ∀ x ∈ i.sourceFiles, x ∉ j.sourceFiles

/-- Fixture: the spec's path-resolution example map (`sourceRoot: "../src"`,
source `"a.ts"`, no `file` field), read from `/proj/dist/app.js.map`. -/
def rawSpecExample : RawSourceMap :=
  { version := 3, sources := ["a.ts"], names := [], sourceRoot := some ("../src")
  , sourcesContent := none, mappings := "", file := none }

/-- Fixture: a map that declares an empty `file` field. -/
def rawEmptyFileField : RawSourceMap :=
  { version := 3, sources := ["a.ts"], names := [], sourceRoot := none
  , sourcesContent := none, mappings := "", file := some ("") }

/-- Fixture: a map for generated file `a.js` claiming `src/shared.ts`. -/
def rawSharedA : RawSourceMap :=
  { version := 3, sources := ["src/shared.ts"], names := [], sourceRoot := none
  , sourcesContent := none, mappings := "", file := some ("a.js") }

/-- Fixture: a map for generated file `b.js` claiming the same source. -/
def rawSharedB : RawSourceMap :=
  { version := 3, sources := ["src/shared.ts"], names := [], sourceRoot := none
  , sourcesContent := none, mappings := "", file := some ("b.js") }

/-- Fixture: a second map for `a.js` claiming a different source. -/
def rawSharedA2 : RawSourceMap :=
  { version := 3, sources := ["src/other.ts"], names := [], sourceRoot := none
  , sourcesContent := none, mappings := "", file := some ("a.js") }

/-- Fixture item for `/proj/a.js`. -/
def itemSharedA : SourceMapItem := SourceMapItem.construct ("/") rawSharedA ("/proj/a.js.map")

/-- Fixture item for `/proj/b.js` sharing `itemSharedA`'s source. -/
def itemSharedB : SourceMapItem := SourceMapItem.construct ("/") rawSharedB ("/proj/b.js.map")

/-- Fixture item replacing `/proj/a.js` with another source set. -/
def itemSharedA2 : SourceMapItem := SourceMapItem.construct ("/") rawSharedA2 ("/proj/a.js.map")

/-- Fixture: a map whose generated file is `/proj/other.js` and whose
declared source resolves to `/proj/app.js` — another map's generated file. -/
def rawRefers : RawSourceMap :=
  { version := 3, sources := ["app.js"], names := [], sourceRoot := none
  , sourcesContent := none, mappings := "", file := some ("other.js") }

/-- Fixture item whose source file list contains `/proj/app.js`. -/
def itemRefers : SourceMapItem := SourceMapItem.construct ("/") rawRefers ("/proj/other.js.map")

/-- Fixture: the map of generated file `/proj/app.js`. -/
def rawMain : RawSourceMap :=
  { version := 3, sources := ["src/a.ts"], names := [], sourceRoot := none
  , sourcesContent := none, mappings := "", file := some ("app.js") }

/-- Fixture item for `/proj/app.js`. -/
def itemMain : SourceMapItem := SourceMapItem.construct ("/") rawMain ("/proj/app.js.map")

/-- Fixture: a map carrying embedded contents for its single source. -/
def rawWithContents : RawSourceMap :=
  { version := 3, sources := ["a.ts"], names := [], sourceRoot := none
  , sourcesContent := some [some ("let x = 1;")], mappings := "", file := some ("app.js") }

/-- Fixture item for the embedded-contents map. -/
def itemWithContents : SourceMapItem :=
  SourceMapItem.construct ("/") rawWithContents ("/proj/dist/app.js.map")

/-- Fixture decoder answering every query with source `a.ts`, line 5,
column 2. -/
def decoderFixture : SmDecoder :=
  fun _ => .ok { source := some ("a.ts"), line := some 5, column := some 2, name := none }

/-- Fixture editor position in the generated file. -/
def positionFixture : FilePosition :=
  { file := "/proj/dist/app.js", line := 10, column := 3, contents := none }

/-- Fixture environment whose external capabilities all fail (they are never
consulted on the paths exercised below). -/
def dummyEnv : Env :=
  { cwd := "/", readFile := fun _ => .error ("io")
  , parseJsonMap := fun _ => .error ("parse"), base64DecodeUtf8 := fun _ => .error ("b64") }

/-- Fixture: a 12-line document with a decoy directive on its 2nd line
(outside the 10-line window) and two matching lines inside the window; the
last one names `app.js.map`. -/
def docDirective : TextDocument :=
  { fileName := "/proj/dist/app.js"
  , lines := ["line0", "//# sourceMappingURL=outside-decoy.map", "line2", "line3"
            , "//@ sourceMappingURL=early-in-window.map", "line5", "line6", "line7"
            , "line8", "line9", "line10", "//# sourceMappingURL=app.js.map"] }

/-- Fixture: a 3-line document that ends in a valid directive. -/
def docShort : TextDocument :=
  { fileName := "/proj/dist/app.js"
  , lines := ["line0", "line1", "//# sourceMappingURL=app.js.map"] }

/-- Fixture: a single-line document with no directive. -/
def docNoDirective : TextDocument :=
  { fileName := "/proj/plain.js", lines := ["const a = 1;"] }

/-- Fixture: a directive-free document whose path is `itemSharedA`'s
generated file. -/
def docHitCached : TextDocument :=
  { fileName := "/proj/a.js", lines := ["const a = 1;"] }

/-- Fixture: the state after caching `itemSharedA` into a fresh store and
then running the watcher eviction callback for its generated file. -/
def evictedState : StoreState :=
  SourceMapStore.removeItem (SourceMapStore.addItem initialStore itemSharedA)
    itemSharedA.generatedFile

/-- Fixture: the position `originalPositionFor` produces for
`itemWithContents`, `decoderFixture` and `positionFixture`. -/
def resultFixture : FilePosition :=
  { file := "/proj/dist/a.ts", line := 4, column := 2, contents := some ("let x = 1;") }

/-- Fixture: an operation sequence whose added items have pairwise disjoint
source files. -/
def opsFixture : List StoreOp :=
  [.add itemSharedA, .add itemMain, .remove itemSharedA.generatedFile]

theorem lookupKey_setKey_self {α : Type} (m : List (String × α)) (k : String) (v : α) :
    lookupKey (setKey m k v) k = some v := by
  induction m with
  | nil => simp [setKey, lookupKey]
  | cons p rest ih =>
    by_cases h : p.1 = k
    · simp [setKey, h, lookupKey]
    · simp [setKey, h, lookupKey, ih]

theorem lookupKey_setKey_ne {α : Type} (m : List (String × α)) (k k' : String) (v : α)
    (h : k' ≠ k) : lookupKey (setKey m k v) k' = lookupKey m k' := by
  have hk : ¬ k = k' := fun hh => h hh.symm
  induction m with
  | nil => simp [setKey, lookupKey, hk]
  | cons p rest ih =>
    by_cases hp : p.1 = k
    · simp [setKey, hp, lookupKey, hk]
    · simp [setKey, hp, lookupKey, ih]

theorem lookupKey_deleteKey_self {α : Type} (m : List (String × α)) (k : String) :
    lookupKey (deleteKey m k) k = none := by
  induction m with
  | nil => simp [deleteKey, lookupKey]
  | cons p rest ih =>
    by_cases h : p.1 = k
    · simp [deleteKey, h, ih]
    · simp [deleteKey, h, lookupKey, ih]

theorem lookupKey_deleteKey_ne {α : Type} (m : List (String × α)) (k k' : String)
    (h : k' ≠ k) : lookupKey (deleteKey m k) k' = lookupKey m k' := by
  have hk : ¬ k = k' := fun hh => h hh.symm
  induction m with
  | nil => simp [deleteKey]
  | cons p rest ih =>
    by_cases hp : p.1 = k
    · simp [deleteKey, hp, lookupKey, ih, hk]
    · simp [deleteKey, hp, lookupKey, ih]

theorem deleteKey_eq_of_lookup_none {α : Type} (m : List (String × α)) (k : String)
    (h : lookupKey m k = none) : deleteKey m k = m := by
  induction m with
  | nil => simp [deleteKey]
  | cons p rest ih =>
    by_cases hp : p.1 = k
    · simp [lookupKey, hp] at h
    · simp [lookupKey, hp] at h
      simp [deleteKey, hp, ih h]

theorem deleteKey_eq_filter {α : Type} (m : List (String × α)) (k : String) :
    deleteKey m k = m.filter (fun p => decide (p.1 ≠ k)) := by
  induction m with
  | nil => simp [deleteKey]
  | cons p rest ih =>
    by_cases hp : p.1 = k
    · simp [deleteKey, hp, ih]
    · simp [deleteKey, hp, ih]

theorem mem_deleteKey {α : Type} (m : List (String × α)) (k : String) (p : String × α) :
    p ∈ deleteKey m k ↔ p ∈ m ∧ p.1 ≠ k := by
  rw [deleteKey_eq_filter]
  simp [List.mem_filter]

theorem mem_setKey {α : Type} (m : List (String × α)) (k : String) (v : α)
    (p : String × α) (h : p ∈ setKey m k v) : p = (k, v) ∨ p ∈ m := by
  induction m with
  | nil => simpa [setKey] using h
  | cons q rest ih =>
    by_cases hq : q.1 = k
    · rcases List.mem_cons.mp (by simpa [setKey, hq] using h) with h1 | h1
      · exact Or.inl h1
      · exact Or.inr (List.mem_cons_of_mem q h1)
    · rcases List.mem_cons.mp (by simpa [setKey, hq] using h) with h1 | h1
      · exact Or.inr (h1 ▸ List.mem_cons_self q rest)
      · rcases ih h1 with h2 | h2
        · exact Or.inl h2
        · exact Or.inr (List.mem_cons_of_mem q h2)

theorem lookupKey_mem {α : Type} (m : List (String × α)) (k : String) (v : α)
    (h : lookupKey m k = some v) : (k, v) ∈ m := by
  induction m with
  | nil => simp [lookupKey] at h
  | cons p rest ih =>
    by_cases hp : p.1 = k
    · simp [lookupKey, hp] at h
      exact List.mem_cons.mpr (Or.inl (by rw [← h, ← hp]))
    · simp [lookupKey, hp] at h
      exact List.mem_cons_of_mem p (ih h)

theorem lookupKey_eq_none_iff {α : Type} (m : List (String × α)) (k : String) :
    lookupKey m k = none ↔ ∀ p ∈ m, p.1 ≠ k := by
  induction m with
  | nil => simp [lookupKey]
  | cons p rest ih =>
    by_cases hp : p.1 = k
    · simp [lookupKey, hp]
    · simp [lookupKey, hp, ih]

theorem nodupKeys_deleteKey {α : Type} (m : List (String × α)) (k : String)
    (h : NodupKeys m) : NodupKeys (deleteKey m k) := by
  unfold NodupKeys at h ⊢
  rw [deleteKey_eq_filter]
  exact ((List.filter_sublist _).map Prod.fst).nodup h

theorem lookupKey_of_mem_nodup {α : Type} (m : List (String × α)) (p : String × α)
    (hn : NodupKeys m) (hp : p ∈ m) : lookupKey m p.1 = some p.2 := by
  induction m with
  | nil => simp at hp
  | cons q rest ih =>
    unfold NodupKeys at hn
    rw [List.map_cons] at hn
    have hn' := List.nodup_cons.mp hn
    rcases List.mem_cons.mp hp with h1 | h1
    · rw [h1]
      simp [lookupKey]
    · have hq : ¬ q.1 = p.1 := by
        intro he
        refine hn'.1 ?_
        rw [he]
        exact List.mem_map.mpr ⟨p, h1, rfl⟩
      simp [lookupKey, hq]
      exact ih hn'.2 h1

theorem lookupKey_foldl_setKey (srcs : List String) (g x : String)
    (t0 : List (String × String)) :
    lookupKey (srcs.foldl (fun t s => setKey t s g) t0) x =
      if x ∈ srcs then some g else lookupKey t0 x := by
  induction srcs generalizing t0 with
  | nil => simp
  | cons s rest ih =>
    by_cases hx : x ∈ rest
    · simp [List.foldl_cons, ih, hx]
    · by_cases hxs : x = s
      · subst hxs
        simp [List.foldl_cons, ih, hx, lookupKey_setKey_self]
      · simp [List.foldl_cons, ih, hx, hxs, lookupKey_setKey_ne _ _ _ _ hxs]

theorem lookupKey_foldl_deleteKey (srcs : List String) (x : String)
    (t0 : List (String × String)) :
    lookupKey (srcs.foldl deleteKey t0) x =
      if x ∈ srcs then none else lookupKey t0 x := by
  induction srcs generalizing t0 with
  | nil => simp
  | cons s rest ih =>
    by_cases hx : x ∈ rest
    · simp [List.foldl_cons, ih, hx]
    · by_cases hxs : x = s
      · subst hxs
        simp [List.foldl_cons, ih, hx, lookupKey_deleteKey_self]
      · simp [List.foldl_cons, ih, hx, hxs, lookupKey_deleteKey_ne _ _ _ hxs]

theorem foldl_deleteKey_empty {α : Type} (L : List String) (m : List (String × α))
    (h : ∀ p ∈ m, p.1 ∈ L) : L.foldl deleteKey m = [] := by
  induction L generalizing m with
  | nil =>
    cases m with
    | nil => simp
    | cons p rest => exact absurd (h p (by simp)) (by simp)
  | cons k L' ih =>
    simp only [List.foldl_cons]
    refine ih (deleteKey m k) ?_
    intro p hp
    have := (mem_deleteKey m k p).mp hp
    rcases List.mem_cons.mp (h p this.1) with h1 | h1
    · exact absurd h1 this.2
    · exact h1

theorem removeItem_cache (s : StoreState) (g : String) :
    (SourceMapStore.removeItem s g).cache = deleteKey s.cache g := by
  unfold SourceMapStore.removeItem
  cases hw : lookupKey s.watchers g with
  | none =>
    cases hc : lookupKey s.cache g with
    | none => simp [hc, deleteKey_eq_of_lookup_none s.cache g hc]
    | some item => simp [hc]
  | some w =>
    cases hc : lookupKey s.cache g with
    | none => simp [hc, deleteKey_eq_of_lookup_none s.cache g hc]
    | some item => simp [hc]

theorem removeItem_watchers (s : StoreState) (g : String) :
    (SourceMapStore.removeItem s g).watchers = deleteKey s.watchers g := by
  unfold SourceMapStore.removeItem
  cases hw : lookupKey s.watchers g with
  | none =>
    cases hc : lookupKey s.cache g with
    | none => simp [hc, deleteKey_eq_of_lookup_none s.watchers g hw]
    | some item => simp [hc, deleteKey_eq_of_lookup_none s.watchers g hw]
  | some w =>
    cases hc : lookupKey s.cache g with
    | none => simp [hc]
    | some item => simp [hc]

theorem removeItem_disposed_mono (s : StoreState) (g : String) (x : Nat)
    (h : x ∈ s.disposedIds) : x ∈ (SourceMapStore.removeItem s g).disposedIds := by
  unfold SourceMapStore.removeItem
  cases hw : lookupKey s.watchers g with
  | none =>
    cases hc : lookupKey s.cache g with
    | none => simpa [hc] using h
    | some item => simpa [hc] using h
  | some w =>
    cases hc : lookupKey s.cache g with
    | none => simpa [hc] using Or.inl h
    | some item => simpa [hc] using Or.inl h

theorem removeItem_disposes (s : StoreState) (g : String) (w : FileSystemWatcher)
    (h : lookupKey s.watchers g = some w) :
    w.id ∈ (SourceMapStore.removeItem s g).disposedIds := by
  unfold SourceMapStore.removeItem
  rw [h]
  cases hc : lookupKey s.cache g with
  | none => simp [hc]
  | some item => simp [hc]

theorem foldl_removeItem_cache (L : List String) (s : StoreState) :
    (L.foldl SourceMapStore.removeItem s).cache = L.foldl deleteKey s.cache := by
  induction L generalizing s with
  | nil => simp
  | cons k L' ih => simp [List.foldl_cons, ih, removeItem_cache]

theorem foldl_removeItem_watchers (L : List String) (s : StoreState) :
    (L.foldl SourceMapStore.removeItem s).watchers = L.foldl deleteKey s.watchers := by
  induction L generalizing s with
  | nil => simp
  | cons k L' ih => simp [List.foldl_cons, ih, removeItem_watchers]

theorem foldl_removeItem_disposed_mono (L : List String) (s : StoreState) (x : Nat)
    (h : x ∈ s.disposedIds) : x ∈ (L.foldl SourceMapStore.removeItem s).disposedIds := by
  induction L generalizing s with
  | nil => simpa using h
  | cons k L' ih => exact ih _ (removeItem_disposed_mono s k x h)

theorem foldl_removeItem_disposes_all (L : List String) (s : StoreState)
    (p : String × FileSystemWatcher) (hn : NodupKeys s.watchers) (hp : p ∈ s.watchers)
    (hL : p.1 ∈ L) : p.2.id ∈ (L.foldl SourceMapStore.removeItem s).disposedIds := by
  induction L generalizing s with
  | nil => simp at hL
  | cons k L' ih =>
    simp only [List.foldl_cons]
    by_cases hk : p.1 = k
    · have hlook : lookupKey s.watchers k = some p.2 := hk ▸ lookupKey_of_mem_nodup s.watchers p hn hp
      exact foldl_removeItem_disposed_mono L' _ p.2.id (removeItem_disposes s k p.2 hlook)
    · have hp' : p ∈ (SourceMapStore.removeItem s k).watchers := by
        rw [removeItem_watchers]
        exact (mem_deleteKey s.watchers k p).mpr ⟨hp, hk⟩
      have hn' : NodupKeys (SourceMapStore.removeItem s k).watchers := by
        rw [removeItem_watchers]
        exact nodupKeys_deleteKey s.watchers k hn
      have hL' : p.1 ∈ L' := by
        rcases List.mem_cons.mp hL with h1 | h1
        · exact absurd h1 hk
        · exact h1
      exact ih _ hn' hp' hL'

theorem removeItem_reverse (s : StoreState) (g : String) :
    (SourceMapStore.removeItem s g).reverseLookupTable =
      (match lookupKey s.cache g with
       | some item => item.sourceFiles.foldl deleteKey s.reverseLookupTable
       | none => s.reverseLookupTable) := by
  unfold SourceMapStore.removeItem
  cases hw : lookupKey s.watchers g with
  | none =>
    cases hc : lookupKey s.cache g with
    | none => simp [hc]
    | some item => simp [hc]
  | some w =>
    cases hc : lookupKey s.cache g with
    | none => simp [hc]
    | some item => simp [hc]

theorem storeInv_addItem (s : StoreState) (item : SourceMapItem) (hinv : StoreInv s)
    (hdisj : ∀ p ∈ s.cache, p.1 ≠ item.generatedFile →
      (∀ x ∈ item.sourceFiles, x ∉ p.2.sourceFiles) ∧
      (∀ x ∈ p.2.sourceFiles, x ∉ item.sourceFiles)) :
    StoreInv (SourceMapStore.addItem s item) := by
  obtain ⟨h1, h2, h3, h4⟩ := hinv
  refine ⟨?_, ?_, ?_, ?_⟩
  · intro p hp
    simp only [SourceMapStore.addItem] at hp ⊢
    by_cases hk : p.1 = item.generatedFile
    · rw [hk, lookupKey_setKey_self]
      rfl
    · rw [lookupKey_setKey_ne _ _ _ _ hk]
      rcases mem_setKey _ _ _ _ hp with he | hm
      · exact absurd (by rw [he]) hk
      · exact h1 p hm
  · intro p hp
    simp only [SourceMapStore.addItem] at hp
    rcases mem_setKey _ _ _ _ hp with he | hm
    · rw [he]
    · exact h2 p hm
  · intro p hp src hsrc
    simp only [SourceMapStore.addItem] at hp ⊢
    rw [lookupKey_foldl_setKey]
    rcases mem_setKey _ _ _ _ hp with he | hm
    · subst he
      rw [if_pos hsrc]
    · by_cases hs : src ∈ item.sourceFiles
      · rw [if_pos hs]
        by_cases hk : p.1 = item.generatedFile
        · rw [hk]
        · exact absurd hs ((hdisj p hm hk).2 src hsrc)
      · rw [if_neg hs]
        exact h3 p hm src hsrc
  · intro p hp q hq hne x hx
    simp only [SourceMapStore.addItem] at hp hq
    rcases mem_setKey _ _ _ _ hp with hep | hmp <;> rcases mem_setKey _ _ _ _ hq with heq | hmq
    · subst hep
      subst heq
      exact absurd rfl hne
    · subst hep
      exact (hdisj q hmq (Ne.symm hne)).1 x hx
    · subst heq
      exact (hdisj p hmp hne).2 x hx
    · exact h4 p hmp q hmq hne x hx

theorem storeInv_removeItem (s : StoreState) (g : String) (hinv : StoreInv s) :
    StoreInv (SourceMapStore.removeItem s g) := by
  obtain ⟨h1, h2, h3, h4⟩ := hinv
  refine ⟨?_, ?_, ?_, ?_⟩
  · intro p hp
    rw [removeItem_cache] at hp
    obtain ⟨hm, hne⟩ := (mem_deleteKey _ _ _).mp hp
    rw [removeItem_watchers, lookupKey_deleteKey_ne _ _ _ hne]
    exact h1 p hm
  · intro p hp
    rw [removeItem_cache] at hp
    exact h2 p ((mem_deleteKey _ _ _).mp hp).1
  · intro p hp src hsrc
    rw [removeItem_cache] at hp
    obtain ⟨hm, hne⟩ := (mem_deleteKey _ _ _).mp hp
    rw [removeItem_reverse]
    cases hc : lookupKey s.cache g with
    | none => exact h3 p hm src hsrc
    | some item =>
      have hitem : (g, item) ∈ s.cache := lookupKey_mem _ _ _ hc
      have hx : src ∉ item.sourceFiles := h4 p hm (g, item) hitem hne src hsrc
      rw [lookupKey_foldl_deleteKey, if_neg hx]
      exact h3 p hm src hsrc
  · intro p hp q hq hne x hx
    rw [removeItem_cache] at hp hq
    exact h4 p ((mem_deleteKey _ _ _).mp hp).1 q ((mem_deleteKey _ _ _).mp hq).1 hne x hx

theorem itemsOk_of_subset (l l' : List SourceMapItem) (h : ItemsOk l)
    (hsub : ∀ x ∈ l', x ∈ l) : ItemsOk l' :=
  fun i hi j hj hne x hx => h i (hsub i hi) j (hsub j hj) hne x hx

theorem storeInv_runOps (ops : List StoreOp) (s : StoreState) (hinv : StoreInv s)
    (hok : ItemsOk (s.cache.map Prod.snd ++ addedItems ops)) :
    StoreInv (runStoreOps s ops) := by
  induction ops generalizing s with
  | nil => simpa [runStoreOps] using hinv
  | cons op rest ih =>
    have hstep : runStoreOps s (op :: rest) = runStoreOps (applyStoreOp s op) rest := by
      simp [runStoreOps]
    rw [hstep]
    cases op with
    | add item =>
      have hB : ∀ p ∈ s.cache, p.2.generatedFile = p.1 := by
        obtain ⟨_, h2, _, _⟩ := hinv
        exact h2
      have hdisj : ∀ p ∈ s.cache, p.1 ≠ item.generatedFile →
          (∀ x ∈ item.sourceFiles, x ∉ p.2.sourceFiles) ∧
          (∀ x ∈ p.2.sourceFiles, x ∉ item.sourceFiles) := by
        intro p hp hne
        have hpmem : p.2 ∈ s.cache.map Prod.snd ++ addedItems (StoreOp.add item :: rest) :=
          List.mem_append_left _ (List.mem_map.mpr ⟨p, hp, rfl⟩)
        have hitemmem : item ∈ s.cache.map Prod.snd ++ addedItems (StoreOp.add item :: rest) :=
          List.mem_append_right _ (by simp [addedItems])
        have hgen : p.2.generatedFile = p.1 := hB p hp
        constructor
        · exact hok item hitemmem p.2 hpmem (by rw [hgen]; exact Ne.symm hne)
        · exact hok p.2 hpmem item hitemmem (by rw [hgen]; exact hne)
      refine ih (SourceMapStore.addItem s item) (storeInv_addItem s item hinv hdisj) ?_
      refine itemsOk_of_subset _ _ hok ?_
      intro x hx
      rcases List.mem_append.mp hx with hx1 | hx1
      · rcases List.mem_map.mp hx1 with ⟨p, hp, he⟩
        rcases mem_setKey _ _ _ _ (by simpa [SourceMapStore.addItem] using hp) with he2 | hm
        · subst he
          rw [he2]
          exact List.mem_append_right _ (by simp [addedItems])
        · exact List.mem_append_left _ (List.mem_map.mpr ⟨p, hm, he⟩)
      · exact List.mem_append_right _ (by simp [addedItems]; exact Or.inr hx1)
    | remove gp =>
      refine ih _ (storeInv_removeItem s gp hinv) (itemsOk_of_subset _ _ hok ?_)
      intro x hx
      rcases List.mem_append.mp hx with hx1 | hx1
      · rcases List.mem_map.mp hx1 with ⟨p, hp, he⟩
        simp only [applyStoreOp] at hp
        rw [removeItem_cache] at hp
        exact List.mem_append_left _ (List.mem_map.mpr ⟨p, ((mem_deleteKey _ _ _).mp hp).1, he⟩)
      · exact List.mem_append_right _ (by simpa [addedItems] using hx1)

theorem foldl_keep_nonempty (f : String → String) (L : List String) (acc : String)
    (h : ¬ acc = "") :
    L.foldl (fun r l => if r = "" then f l else r) acc = acc := by
  induction L with
  | nil => rfl
  | cons l rest ih => simp [List.foldl_cons, h, ih]

theorem lastDirectiveValue_ne_empty (L : List String) (v : String)
    (h : lastDirectiveValue L = some v) : ¬ v = "" := by
  induction L with
  | nil => simp [lastDirectiveValue] at h
  | cons l rest ih =>
    unfold lastDirectiveValue at h
    cases hr : lastDirectiveValue rest with
    | some w =>
      rw [hr] at h
      simp at h
      subst h
      exact ih hr
    | none =>
      rw [hr] at h
      by_cases he : SourceMapFetcher.tryExtractUrl l = ""
      · rw [if_pos he] at h
        exact absurd h (by simp)
      · rw [if_neg he] at h
        simp at h
        rw [← h]
        exact he

theorem fetchedFold_eq_lastDirective (L : List String) :
    L.reverse.foldl (fun r l => if r = "" then SourceMapFetcher.tryExtractUrl l else r) "" =
      (lastDirectiveValue L).getD ("") := by
  induction L with
  | nil => rfl
  | cons l rest ih =>
    rw [List.reverse_cons, List.foldl_append]
    simp only [List.foldl_cons, List.foldl_nil]
    rw [ih]
    cases hr : lastDirectiveValue rest with
    | some w =>
      have hne := lastDirectiveValue_ne_empty rest w hr
      simp [lastDirectiveValue, hr, hne]
    | none =>
      by_cases he : SourceMapFetcher.tryExtractUrl l = "" <;>
        simp [lastDirectiveValue, hr, he]

theorem fetchedMapUrl_eq (document : TextDocument) :
    SourceMapFetcher.fetchedMapUrl document =
      (lastDirectiveValue (document.lines.drop (document.lines.length - 10))).getD ("") := by
  unfold SourceMapFetcher.fetchedMapUrl
  exact fetchedFold_eq_lastDirective _

theorem lastDirectiveValue_eq_none (L : List String)
    (h : ∀ l ∈ L, SourceMapFetcher.tryExtractUrl l = "") : lastDirectiveValue L = none := by
  induction L with
  | nil => rfl
  | cons l rest ih =>
    unfold lastDirectiveValue
    rw [ih (fun x hx => h x (List.mem_cons_of_mem l hx)), if_pos (h l (List.mem_cons_self l rest))]

/-- C1 (amended): for every raw source map and map-file path, the
`SourceMapItem` constructor resolves each declared source path as
`resolve(dirname(mapFile), sourceRoot-or-empty-string, declaredSourcePath)`,
and sets `generatedFile` to `resolve(dirname(mapFile), map.file)` when the
map declares a non-empty `file` field and to the map file's own path
otherwise (amended: an empty `file` string is falsy in JavaScript, so it
also falls back to the map file's path).  In this functional embedding the
values are fields filled in once by the constructor, never recomputed.  The
closing conjuncts check the spec's concrete example (`sourceRoot "../src"`,
source `a.ts`, map at `/proj/dist/app.js.map`, no `file` field). -/
theorem claim1_construct_path_resolution (cwd : String) (raw : RawSourceMap)
    (mapFile : String) :
    ((SourceMapItem.construct cwd raw mapFile).sourceFiles =
      raw.sources.map (fun declaredSourcePath =>
        pathResolve cwd [posixDirname mapFile, (raw.sourceRoot).getD (""), declaredSourcePath])) ∧
    ((SourceMapItem.construct cwd raw mapFile).generatedFile =
      match raw.file with
      | some f => if f = "" then mapFile else pathResolve cwd [posixDirname mapFile, f]
      | none => mapFile) ∧
    (SourceMapItem.construct ("/") rawSpecExample ("/proj/dist/app.js.map")).sourceFiles =
      [("/proj/src/a.ts")] ∧
    (SourceMapItem.construct ("/") rawSpecExample ("/proj/dist/app.js.map")).generatedFile =
      "/proj/dist/app.js.map" := by
  have hroot : jsOrEmpty raw.sourceRoot = (raw.sourceRoot).getD ("") := by
    cases raw.sourceRoot <;> rfl
  refine ⟨?_, rfl, by decide, by decide⟩
  simp [SourceMapItem.construct, hroot]

/-- C1 counterexample: a map that declares `file: ""` gets the map file's own
path as `generatedFile`, not `resolve(dirname(mapFile), map.file)` as the
claim states for every declared `file` field. -/
theorem claim1_counterexample :
    ¬ ((SourceMapItem.construct ("/") rawEmptyFileField ("/proj/dist/app.js.map")).generatedFile =
        pathResolve ("/") [posixDirname ("/proj/dist/app.js.map"), ""]) := by
  decide

/-- C2: for every document of at least 10 lines, the fetched directive value
is the extraction of the last (closest-to-end-of-file) line of the final
10-line window whose `//[#@] ?sourceMappingURL=` extraction is non-empty
(`lastDirectiveValue` of the window), and `SourceMapFetcher.fetch` returns
exactly that value (resolved against the document directory unless it is a
data URI) or fails when the window has no match; both right-hand sides
depend only on the last 10 lines, so an earlier matching line is never
returned. -/
theorem claim2_fetch_last_ten_lines (cwd : String) (document : TextDocument)
    (h : 10 ≤ document.lines.length) :
    SourceMapFetcher.fetchedMapUrl document =
      (lastDirectiveValue (document.lines.drop (document.lines.length - 10))).getD ("") ∧
    SourceMapFetcher.fetch cwd document =
      (match lastDirectiveValue (document.lines.drop (document.lines.length - 10)) with
       | none => .error (.noUrl document.fileName)
       | some url => .ok
           { mapUrl := if isDataUri url then url
                       else pathResolve cwd [posixDirname document.fileName, url]
           , fileUrl := document.fileName }) := by
  have hcount : ¬ document.lineCount < 10 := by
    unfold TextDocument.lineCount
    omega
  refine ⟨fetchedMapUrl_eq document, ?_⟩
  unfold SourceMapFetcher.fetch
  rw [if_neg hcount]
  cases hr : lastDirectiveValue (document.lines.drop (document.lines.length - 10)) with
  | none =>
    simp only [fetchedMapUrl_eq document, hr]
    simp
  | some url =>
    have hne := lastDirectiveValue_ne_empty _ _ hr
    simp only [fetchedMapUrl_eq document, hr]
    simp [hne]

/-- C2 witness: a 12-line document with a decoy directive outside the window
and two matches inside it; the last line's value is the fetched one. -/
theorem claim2_witness :
    10 ≤ docDirective.lines.length ∧
    (SourceMapFetcher.fetchedMapUrl docDirective =
      (lastDirectiveValue (docDirective.lines.drop (docDirective.lines.length - 10))).getD ("") ∧
    SourceMapFetcher.fetch ("/") docDirective =
      (match lastDirectiveValue (docDirective.lines.drop (docDirective.lines.length - 10)) with
       | none => .error (.noUrl docDirective.fileName)
       | some url => .ok
           { mapUrl := if isDataUri url then url
                       else pathResolve ("/") [posixDirname docDirective.fileName, url]
           , fileUrl := docDirective.fileName })) ∧
    SourceMapFetcher.fetchedMapUrl docDirective = "app.js.map" :=
  ⟨by decide, claim2_fetch_last_ten_lines ("/") docDirective (by decide), by decide⟩

/-- C6: `isCurrentDocumentGenerated` is true exactly when the active
document's path string-equals the resolved generated-file path, and the
`navigate` translation step translates generated-to-original exactly when it
is true and original-to-generated otherwise. -/
theorem claim6_direction_selection (decoderO decoderG : SmDecoder) (cwd : String)
    (sm : SourceMapItem) (activeFileName : String) (activePosition : FilePosition) :
    (sm.isCurrentDocumentGenerated activeFileName = true ↔
      sm.generatedFile = activeFileName) ∧
    navigateTranslation decoderO decoderG cwd sm activeFileName activePosition =
      (if sm.generatedFile = activeFileName then
        sm.originalPositionFor decoderO cwd activePosition
       else sm.generatedPositionFor decoderG cwd activePosition) := by
  constructor
  · simp [SourceMapItem.isCurrentDocumentGenerated]
  · by_cases h : sm.generatedFile = activeFileName <;>
      simp [navigateTranslation, SourceMapItem.isCurrentDocumentGenerated, h]

/-- C9: removing a key that is absent from both the cache and the watcher
table is a no-op on the whole store state. -/
theorem claim9_removeItem_absent_noop (s : StoreState) (generatedPath : String)
    (h1 : lookupKey s.cache generatedPath = none)
    (h2 : lookupKey s.watchers generatedPath = none) :
    SourceMapStore.removeItem s generatedPath = s := by
  unfold SourceMapStore.removeItem
  rw [h2]
  simp [h1]

/-- C9 witness: removing an uncached path from the fresh store. -/
theorem claim9_witness :
    lookupKey initialStore.cache ("/proj/missing.js") = none ∧
    lookupKey initialStore.watchers ("/proj/missing.js") = none ∧
    SourceMapStore.removeItem initialStore ("/proj/missing.js") = initialStore :=
  ⟨by decide, by decide,
    claim9_removeItem_absent_noop initialStore ("/proj/missing.js") (by decide) (by decide)⟩

/-- C10: for every document of fewer than 10 lines the scan range starts at
the negative line `lineCount - 10`, whose vscode position construction
fails, so the fetch path fails regardless of the document's contents. -/
theorem claim10_short_document_fetch_fails (cwd : String) (document : TextDocument)
    (h : document.lineCount < 10) :
    SourceMapFetcher.fetch cwd document = .error .illegalRange := by
  unfold SourceMapFetcher.fetch
  rw [if_pos h]

/-- C10 witness: a 3-line document ending in a valid directive still fails
(the final conjunct checks that its last line really is a valid directive). -/
theorem claim10_witness :
    docShort.lineCount < 10 ∧
    SourceMapFetcher.fetch ("/") docShort = .error .illegalRange ∧
    ¬ SourceMapFetcher.tryExtractUrl ("//# sourceMappingURL=app.js.map") = "" :=
  ⟨by decide, claim10_short_document_fetch_fails ("/") docShort (by decide), by decide⟩

/-- C3 (amended): in every store state reachable by a sequence of `addItem`
and `removeItem` operations whose added items claim pairwise disjoint source
files across distinct generated files, every cache key has a watcher under
the same key and every source file of a cached item maps back to that item's
generated-file key in the reverse table.  (Amended: the disjointness proviso
is required — the reverse table is last-writer-wins when two maps claim the
same source, see the counterexample.) -/
theorem claim3_store_invariant (ops : List StoreOp) (h : ItemsOk (addedItems ops)) :
    (∀ p ∈ (runStoreOps initialStore ops).cache,
      (lookupKey (runStoreOps initialStore ops).watchers p.1).isSome = true) ∧
    (∀ p ∈ (runStoreOps initialStore ops).cache, ∀ src ∈ (p.2).sourceFiles,
      lookupKey (runStoreOps initialStore ops).reverseLookupTable src = some p.1) := by
  have hinv0 : StoreInv initialStore := by
    refine ⟨?_, ?_, ?_, ?_⟩ <;> intro p hp <;> simp [initialStore] at hp
  have hok : ItemsOk (initialStore.cache.map Prod.snd ++ addedItems ops) := by
    simpa [initialStore] using h
  obtain ⟨hA, hB, hC, hD⟩ := storeInv_runOps ops initialStore hinv0 hok
  exact ⟨hA, hC⟩

/-- C3 witness: a three-operation run with disjoint source sets. -/
theorem claim3_witness :
    ItemsOk (addedItems opsFixture) ∧
    ((∀ p ∈ (runStoreOps initialStore opsFixture).cache,
      (lookupKey (runStoreOps initialStore opsFixture).watchers p.1).isSome = true) ∧
    (∀ p ∈ (runStoreOps initialStore opsFixture).cache, ∀ src ∈ (p.2).sourceFiles,
      lookupKey (runStoreOps initialStore opsFixture).reverseLookupTable src = some p.1)) :=
  ⟨by decide, claim3_store_invariant opsFixture (by decide)⟩

/-- C3 counterexample: after adding two items that share the source
`/proj/src/shared.ts` under different generated files, the shared source's
reverse entry points at the later item, so the earlier cached item's source
no longer maps back to its own key — the claimed invariant fails in a
reachable state. -/
theorem claim3_counterexample :
    ¬ (∀ p ∈ (runStoreOps initialStore [.add itemSharedA, .add itemSharedB]).cache,
        ∀ src ∈ (p.2).sourceFiles,
        lookupKey (runStoreOps initialStore
          [.add itemSharedA, .add itemSharedB]).reverseLookupTable src = some p.1) := by
  decide

/-- C4 (amended): after `addItem(item)` followed by `removeItem(G)` for the
item's generated file `G`, the key `G` is gone from the cache and the watcher
table, the watcher created for it has been disposed, and the reverse entries
for all its source files are gone — all unconditionally, from every prior
state.  The miss-path conjuncts carry their provisos inside the statement:
when the prior state held no reverse entry for `G` itself, the subsequent
lookup for `G` takes the miss (re-fetch) path, and for each source file that
the prior state did not cache under its own key, so does the lookup for that
source.  (Amended: the provisos on the miss-path parts are required — a
colliding cached map can keep the lookup hitting, see the counterexample.) -/
theorem claim4_eviction (s : StoreState) (item : SourceMapItem) (s2 : StoreState)
    (hs2 : s2 = SourceMapStore.removeItem (SourceMapStore.addItem s item)
      item.generatedFile) :
    lookupKey s2.cache item.generatedFile = none ∧
    lookupKey s2.watchers item.generatedFile = none ∧
    s.nextWatcherId ∈ s2.disposedIds ∧
    (∀ src ∈ item.sourceFiles, lookupKey s2.reverseLookupTable src = none) ∧
    (lookupKey s.reverseLookupTable item.generatedFile = none →
      SourceMapStore.lookupFor s2 item.generatedFile = none) ∧
    (∀ src ∈ item.sourceFiles,
      (¬ src = item.generatedFile → lookupKey s.cache src = none) →
      SourceMapStore.lookupFor s2 src = none) := by
  subst hs2
  have hcacheA : (SourceMapStore.addItem s item).cache =
      setKey s.cache item.generatedFile item := rfl
  have hwatchA : (SourceMapStore.addItem s item).watchers =
      setKey s.watchers item.generatedFile
        { id := s.nextWatcherId, pattern := item.generatedFile
        , ignoreCreateEvents := true } := rfl
  have hrevA : (SourceMapStore.addItem s item).reverseLookupTable =
      item.sourceFiles.foldl (fun t sourceFile => setKey t sourceFile item.generatedFile)
        s.reverseLookupTable := rfl
  have hcache2 : (SourceMapStore.removeItem (SourceMapStore.addItem s item)
      item.generatedFile).cache =
      deleteKey (setKey s.cache item.generatedFile item) item.generatedFile := by
    rw [removeItem_cache, hcacheA]
  have hwatch2 : (SourceMapStore.removeItem (SourceMapStore.addItem s item)
      item.generatedFile).watchers =
      deleteKey (setKey s.watchers item.generatedFile
        { id := s.nextWatcherId, pattern := item.generatedFile
        , ignoreCreateEvents := true }) item.generatedFile := by
    rw [removeItem_watchers, hwatchA]
  have hrev2 : (SourceMapStore.removeItem (SourceMapStore.addItem s item)
      item.generatedFile).reverseLookupTable =
      item.sourceFiles.foldl deleteKey
        (item.sourceFiles.foldl
          (fun t sourceFile => setKey t sourceFile item.generatedFile)
          s.reverseLookupTable) := by
    rw [removeItem_reverse, hcacheA, lookupKey_setKey_self, hrevA]
  have hcgone : lookupKey (SourceMapStore.removeItem (SourceMapStore.addItem s item)
      item.generatedFile).cache item.generatedFile = none := by
    rw [hcache2, lookupKey_deleteKey_self]
  have hrevgone : ∀ src ∈ item.sourceFiles,
      lookupKey (SourceMapStore.removeItem (SourceMapStore.addItem s item)
        item.generatedFile).reverseLookupTable src = none := by
    intro src hsrc
    rw [hrev2, lookupKey_foldl_deleteKey, if_pos hsrc]
  refine ⟨hcgone, ?_, ?_, hrevgone, ?_, ?_⟩
  · rw [hwatch2, lookupKey_deleteKey_self]
  · exact removeItem_disposes _ _
      { id := s.nextWatcherId, pattern := item.generatedFile, ignoreCreateEvents := true }
      (by rw [hwatchA, lookupKey_setKey_self])
  · intro h1
    unfold SourceMapStore.lookupFor
    rw [hcgone]
    unfold SourceMapStore.reverseLookup
    rw [hrev2, lookupKey_foldl_deleteKey]
    by_cases hG : item.generatedFile ∈ item.sourceFiles
    · rw [if_pos hG]
    · rw [if_neg hG, lookupKey_foldl_setKey, if_neg hG, h1]
  · intro src hsrc h2src
    unfold SourceMapStore.lookupFor
    have hcsrc : lookupKey (SourceMapStore.removeItem (SourceMapStore.addItem s item)
        item.generatedFile).cache src = none := by
      rw [hcache2]
      by_cases hsg : src = item.generatedFile
      · rw [hsg, lookupKey_deleteKey_self]
      · rw [lookupKey_deleteKey_ne _ _ _ hsg, lookupKey_setKey_ne _ _ _ _ hsg]
        exact h2src hsg
    rw [hcsrc]
    unfold SourceMapStore.reverseLookup
    rw [hrevgone src hsrc]

/-- C4 witness: caching one item into a fresh store and evicting it; the
final two conjuncts instantiate the in-statement provisos by computation and
record the resulting misses. -/
theorem claim4_witness :
    evictedState = SourceMapStore.removeItem
      (SourceMapStore.addItem initialStore itemSharedA) itemSharedA.generatedFile ∧
    (lookupKey evictedState.cache itemSharedA.generatedFile = none ∧
    lookupKey evictedState.watchers itemSharedA.generatedFile = none ∧
    initialStore.nextWatcherId ∈ evictedState.disposedIds ∧
    (∀ src ∈ itemSharedA.sourceFiles,
      lookupKey evictedState.reverseLookupTable src = none) ∧
    (lookupKey initialStore.reverseLookupTable itemSharedA.generatedFile = none →
      SourceMapStore.lookupFor evictedState itemSharedA.generatedFile = none) ∧
    (∀ src ∈ itemSharedA.sourceFiles,
      (¬ src = itemSharedA.generatedFile → lookupKey initialStore.cache src = none) →
      SourceMapStore.lookupFor evictedState src = none)) ∧
    SourceMapStore.lookupFor evictedState itemSharedA.generatedFile = none ∧
    (∀ src ∈ itemSharedA.sourceFiles,
      SourceMapStore.lookupFor evictedState src = none) :=
  ⟨rfl, claim4_eviction initialStore itemSharedA evictedState rfl, by decide, by decide⟩

/-- C4 counterexample: `itemRefers` is cached and lists `/proj/app.js` —
`itemMain`'s generated file — among its sources; after caching and evicting
`itemMain`, the lookup for `/proj/app.js` still hits through the reverse
index instead of taking the miss path. -/
theorem claim4_counterexample :
    ¬ (SourceMapStore.lookupFor
        (SourceMapStore.removeItem
          (SourceMapStore.addItem (SourceMapStore.addItem initialStore itemRefers)
            itemMain)
          itemMain.generatedFile)
        itemMain.generatedFile = none) := by
  decide

/-- C5 (amended): for every document whose scanned window (the last 10
lines, or the whole document when shorter) contains no directive and whose
path misses both the cache and the reverse lookup, `getForCurrentDocument`
fails with the fetch-stage error and returns the store state unchanged.
(Amended: the cache-miss proviso is required — a previously cached path
succeeds without consulting the document, see the counterexample.) -/
theorem claim5_no_directive_error (env : Env) (s : StoreState) (document : TextDocument)
    (hmiss : SourceMapStore.lookupFor s document.fileName = none)
    (hnodir : ∀ l ∈ document.lines.drop (document.lines.length - 10),
      SourceMapFetcher.tryExtractUrl l = "") :
    SourceMapStore.getForCurrentDocument env s document =
      (.error storeFetchErrorMessage, s) := by
  unfold SourceMapStore.getForCurrentDocument
  rw [hmiss]
  have hfe : ∃ e, SourceMapFetcher.fetch env.cwd document = Except.error e := by
    by_cases hcount : document.lineCount < 10
    · exact ⟨.illegalRange, by unfold SourceMapFetcher.fetch; rw [if_pos hcount]⟩
    · have hurl : SourceMapFetcher.fetchedMapUrl document = "" := by
        rw [fetchedMapUrl_eq, lastDirectiveValue_eq_none _ hnodir]
        rfl
      refine ⟨.noUrl document.fileName, ?_⟩
      unfold SourceMapFetcher.fetch
      rw [if_neg hcount]
      simp [hurl]
  obtain ⟨e, he⟩ := hfe
  have hfetch : SourceMapStore.fetch env document = .error storeFetchErrorMessage := by
    unfold SourceMapStore.fetch
    rw [he]
  rw [hfetch]

/-- C5 witness: a fresh store and a one-line document with no directive. -/
theorem claim5_witness :
    SourceMapStore.lookupFor initialStore docNoDirective.fileName = none ∧
    (∀ l ∈ docNoDirective.lines.drop (docNoDirective.lines.length - 10),
      SourceMapFetcher.tryExtractUrl l = "") ∧
    SourceMapStore.getForCurrentDocument dummyEnv initialStore docNoDirective =
      (.error storeFetchErrorMessage, initialStore) :=
  ⟨by decide, by decide,
    claim5_no_directive_error dummyEnv initialStore docNoDirective (by decide) (by decide)⟩

/-- C5 counterexample: the directive-free document `/proj/a.js` is already
cached, so `getForCurrentDocument` succeeds instead of failing with a
fetch-stage error. -/
theorem claim5_counterexample :
    (∀ l ∈ docHitCached.lines.drop (docHitCached.lines.length - 10),
      SourceMapFetcher.tryExtractUrl l = "") ∧
    (SourceMapStore.getForCurrentDocument dummyEnv
        (SourceMapStore.addItem initialStore itemSharedA) docHitCached).1 =
      .ok itemSharedA := by
  constructor
  · decide
  · decide

/-- C7: for every successful `originalPositionFor` query, the returned
position's file is `resolve(dirname(mapFile), decodedSourcePath)` for the
source path the decoder returned, and its `contents` field is exactly the
embedded text that `sourcesContent` carries at the index of that source in
the map's `sources` list (present, non-null and non-empty), absent
otherwise. -/
theorem claim7_original_position (item : SourceMapItem) (decoder : SmDecoder)
    (cwd : String) (position : FilePosition) (result : FilePosition)
    (h : item.originalPositionFor decoder cwd position = .ok result) :
    ∃ smPosition decodedSource,
      decoder position.toSmQuery = .ok smPosition ∧
      smPosition.source = some decodedSource ∧
      result.file = pathResolve cwd [posixDirname item.sourceMapFile, decodedSource] ∧
      result.contents = embeddedContent item.rawSourceMap decodedSource := by
  unfold SourceMapItem.originalPositionFor at h
  cases hd : decoder position.toSmQuery with
  | error e =>
    rw [hd] at h
    exact absurd h (by simp)
  | ok smPosition =>
    rw [hd] at h
    dsimp only at h
    cases hsrc : smPosition.source with
    | none =>
      rw [hsrc] at h
      exact absurd h (by simp)
    | some decodedSource =>
      rw [hsrc] at h
      dsimp only at h
      refine ⟨smPosition, decodedSource, rfl, hsrc, ?_⟩
      cases hsc : item.rawSourceMap.sourcesContent with
      | none =>
        rw [hsc] at h
        simp only [Except.ok.injEq] at h
        subst h
        simp [FilePosition.fromSmPosition, embeddedContent, hsc]
      | some sourcesContent =>
        rw [hsc] at h
        dsimp only at h
        cases hidx : item.rawSourceMap.sources.findIdx? (fun s => s = decodedSource) with
        | none =>
          rw [hidx] at h
          simp only [Except.ok.injEq] at h
          subst h
          simp [FilePosition.fromSmPosition, embeddedContent, hsc, hidx]
        | some mapSourceIndex =>
          rw [hidx] at h
          dsimp only at h
          cases hget : sourcesContent.get? mapSourceIndex with
          | none =>
            rw [hget] at h
            simp only [Except.ok.injEq] at h
            subst h
            rw [List.get?_eq_getElem?] at hget
            simp [FilePosition.fromSmPosition, embeddedContent, hsc, hidx, hget]
          | some entry =>
            cases entry with
            | none =>
              rw [hget] at h
              simp only [Except.ok.injEq] at h
              subst h
              rw [List.get?_eq_getElem?] at hget
              simp [FilePosition.fromSmPosition, embeddedContent, hsc, hidx, hget]
            | some c =>
              rw [hget] at h
              dsimp only at h
              by_cases he : c = ""
              · rw [if_pos he] at h
                simp only [Except.ok.injEq] at h
                subst h
                rw [List.get?_eq_getElem?] at hget
                simp [FilePosition.fromSmPosition, embeddedContent, hsc, hidx, hget, he]
              · rw [if_neg he] at h
                simp only [Except.ok.injEq] at h
                subst h
                rw [List.get?_eq_getElem?] at hget
                simp [FilePosition.fromSmPosition, embeddedContent, hsc, hidx, hget, he]

/-- C7 witness: a map with embedded contents for its single source; the
decoder answers `a.ts`, and the result carries the resolved path and the
embedded text. -/
theorem claim7_witness :
    itemWithContents.originalPositionFor decoderFixture ("/") positionFixture =
      .ok resultFixture ∧
    (∃ smPosition decodedSource,
      decoderFixture positionFixture.toSmQuery = .ok smPosition ∧
      smPosition.source = some decodedSource ∧
      resultFixture.file =
        pathResolve ("/") [posixDirname itemWithContents.sourceMapFile, decodedSource] ∧
      resultFixture.contents = embeddedContent itemWithContents.rawSourceMap decodedSource) :=
  ⟨by decide,
    claim7_original_position itemWithContents decoderFixture ("/") positionFixture
      resultFixture (by decide)⟩

/-- C8 (amended): `dispose` empties the cache, and — provided every watcher
key is a cache key, as holds in every reachable state — empties the watcher
table and disposes every watcher; it is idempotent.  (Amended: the reverse
lookup table is not always emptied — entries left stale by an earlier
cache-slot overwrite survive, see the counterexample.) -/
theorem claim8_dispose (s : StoreState)
    (hW : ∀ p ∈ s.watchers, p.1 ∈ s.cache.map Prod.fst)
    (hN : NodupKeys s.watchers) :
    (SourceMapStore.dispose s).cache = [] ∧
    (SourceMapStore.dispose s).watchers = [] ∧
    (∀ p ∈ s.watchers, p.2.id ∈ (SourceMapStore.dispose s).disposedIds) ∧
    SourceMapStore.dispose (SourceMapStore.dispose s) = SourceMapStore.dispose s := by
  have hcache : (SourceMapStore.dispose s).cache = [] := by
    unfold SourceMapStore.dispose
    rw [foldl_removeItem_cache]
    exact foldl_deleteKey_empty _ _ (fun p hp => List.mem_map.mpr ⟨p, hp, rfl⟩)
  have hwatch : (SourceMapStore.dispose s).watchers = [] := by
    unfold SourceMapStore.dispose
    rw [foldl_removeItem_watchers]
    exact foldl_deleteKey_empty _ _ hW
  refine ⟨hcache, hwatch, ?_, ?_⟩
  · intro p hp
    exact foldl_removeItem_disposes_all _ s p hN hp (hW p hp)
  · show ((SourceMapStore.dispose s).cache.map Prod.fst).foldl SourceMapStore.removeItem
        (SourceMapStore.dispose s) = SourceMapStore.dispose s
    rw [hcache]
    rfl

/-- C8 witness: a store holding one item. -/
theorem claim8_witness :
    (∀ p ∈ (SourceMapStore.addItem initialStore itemSharedA).watchers,
      p.1 ∈ (SourceMapStore.addItem initialStore itemSharedA).cache.map Prod.fst) ∧
    NodupKeys (SourceMapStore.addItem initialStore itemSharedA).watchers ∧
    ((SourceMapStore.dispose (SourceMapStore.addItem initialStore itemSharedA)).cache = [] ∧
    (SourceMapStore.dispose (SourceMapStore.addItem initialStore itemSharedA)).watchers = [] ∧
    (∀ p ∈ (SourceMapStore.addItem initialStore itemSharedA).watchers,
      p.2.id ∈ (SourceMapStore.dispose
        (SourceMapStore.addItem initialStore itemSharedA)).disposedIds) ∧
    SourceMapStore.dispose (SourceMapStore.dispose
      (SourceMapStore.addItem initialStore itemSharedA)) =
      SourceMapStore.dispose (SourceMapStore.addItem initialStore itemSharedA)) :=
  ⟨by decide, by decide,
    claim8_dispose (SourceMapStore.addItem initialStore itemSharedA) (by decide) (by decide)⟩

/-- C8 counterexample: caching two maps for the same generated file leaves a
stale reverse entry for the replaced item's source, and `dispose` does not
remove it — the reverse lookup table is not empty afterwards. -/
theorem claim8_counterexample :
    ¬ ((SourceMapStore.dispose
          (SourceMapStore.addItem (SourceMapStore.addItem initialStore itemSharedA)
            itemSharedA2)).reverseLookupTable = []) := by
  decide
